import Mathlib

/-!
Verification of the company-info-scraper service utilities: a shallow
embedding of the cursor pagination module, the token-bucket rate limiter,
the retry backoff schedule, the request validators and the compression
guard, with theorems checking the specified properties against the code.

Conventions: Python byte strings are `List Nat` (each entry < 256), text
strings are `List Char`, Python floats are modelled as rationals `ℚ`,
Python ints as `Int`/`Nat`.  Fallible operations return `Option` or
`Except`.
-/

namespace Scraper

/-! ### Python list slicing

`pySlice l i j` models the Python expression `l[i:j]`: negative indices
count from the end, and both bounds are clamped into `[0, len l]`. -/

/-- Clamp a Python slice index `i` for a list of length `n` into `[0, n]`:
negative indices are offset by `n`, then the result is clamped. -/
def pyIndex (n : Nat) (i : Int) : Nat :=
  min (if i < 0 then ((n : Int) + i).toNat else i.toNat) n

/-- Python `l[i:j]`. -/
def pySlice {α : Type} (l : List α) (i j : Int) : List α :=
  (l.take (pyIndex l.length j)).drop (pyIndex l.length i)

/-! ### Decimal digits (model of CPython integer printing / parsing) -/

/-- The character for a single decimal digit, as CPython prints it. -/
def digitChar (d : Nat) : Char :=
  match d with
  | 0 => '0' | 1 => '1' | 2 => '2' | 3 => '3' | 4 => '4'
  | 5 => '5' | 6 => '6' | 7 => '7' | 8 => '8' | _ => '9'

/-- Decimal digit recognizer (`'0' ≤ c ≤ '9'`). -/
def isDigit (c : Char) : Bool := '0' ≤ c && c ≤ '9'

/-- Numeric value of a digit character. -/
def digitVal (c : Char) : Nat := c.toNat - 48

/-- Decimal rendering of a natural number, as CPython prints it
(most significant digit first; `0` prints as `"0"`). -/
def natRepr (n : Nat) : List Char :=
  if n = 0 then ['0'] else ((Nat.digits 10 n).map digitChar).reverse

/-- Numeric value of a big-endian digit string. -/
def parseDigits (cs : List Char) : Nat :=
  cs.foldl (fun a c => a * 10 + digitVal c) 0

/-! ### Base64 (model of Python `base64.b64encode` / `base64.b64decode`)

Bytes are `List Nat` (entries < 256).  The decoder is strict about the
alphabet (Python's default `validate=False` silently discards foreign
characters first; no claim distinguishes the two on the inputs used). -/

/-- Character of the standard base64 alphabet for a 6-bit value. -/
def b64Char (n : Nat) : Char :=
  if n < 26 then Char.ofNat (65 + n)
  else if n < 52 then Char.ofNat (97 + (n - 26))
  else if n < 62 then Char.ofNat (48 + (n - 52))
  else if n = 62 then '+' else '/'

/-- 6-bit value of a base64 alphabet character, `none` outside the alphabet. -/
def b64Val (c : Char) : Option Nat :=
  if 'A' ≤ c ∧ c ≤ 'Z' then some (c.toNat - 65)
  else if 'a' ≤ c ∧ c ≤ 'z' then some (c.toNat - 97 + 26)
  else if '0' ≤ c ∧ c ≤ '9' then some (c.toNat - 48 + 52)
  else if c = '+' then some 62
  else if c = '/' then some 63
  else none

/-- Base64 encoding: three bytes become four alphabet characters, with
`'='` padding for a final group of one or two bytes. -/
def b64encode : List Nat → List Char
  | [] => []
  | [b1] => [b64Char (b1 / 4), b64Char (b1 % 4 * 16), '=', '=']
  | [b1, b2] => [b64Char (b1 / 4), b64Char (b1 % 4 * 16 + b2 / 16),
      b64Char (b2 % 16 * 4), '=']
  | b1 :: b2 :: b3 :: rest =>
      b64Char (b1 / 4) :: b64Char (b1 % 4 * 16 + b2 / 16) ::
      b64Char (b2 % 16 * 4 + b3 / 64) :: b64Char (b3 % 64) :: b64encode rest

/-- Reassemble the three bytes of a full four-character group. -/
def b64group (n1 n2 n3 n4 : Nat) : List Nat :=
  [n1 * 4 + n2 / 16, n2 % 16 * 16 + n3 / 4, n3 % 4 * 64 + n4]

/-- Decode the final four-character group, honouring `'='` padding. -/
def b64final (c1 c2 c3 c4 : Char) : Option (List Nat) :=
  match b64Val c1, b64Val c2 with
  | some n1, some n2 =>
    if c3 = '=' then
      if c4 = '=' then some [n1 * 4 + n2 / 16] else none
    else
      match b64Val c3 with
      | some n3 =>
        if c4 = '=' then some [n1 * 4 + n2 / 16, n2 % 16 * 16 + n3 / 4]
        else
          match b64Val c4 with
          | some n4 => some (b64group n1 n2 n3 n4)
          | none => none
      | none => none
  | _, _ => none

/-- Base64 decoding; fails on input whose length is not a multiple of four,
on characters outside the alphabet, or on padding before the final group. -/
def b64decode : List Char → Option (List Nat)
  | [] => some []
  | c1 :: c2 :: c3 :: c4 :: rest =>
    if rest = [] then b64final c1 c2 c3 c4
    else
      match b64Val c1, b64Val c2, b64Val c3, b64Val c4 with
      | some n1, some n2, some n3, some n4 =>
          (b64decode rest).map (fun bs => b64group n1 n2 n3 n4 ++ bs)
      | _, _, _, _ => none
  | _ => none

/-! ### JSON cursor values (model of `json.dumps` / `json.loads` on cursors)

The pagination module only ever serializes flat objects with integer
values (`json.dumps({"offset": n})`), so JSON values are modelled as
integers and flat string-keyed integer objects, and the parser covers
exactly that grammar — a faithful subset of `json.loads` sufficient for
every cursor the code produces or that a claim mentions. -/

/-- A JSON value of the cursor grammar: an integer, or a flat object
mapping string keys to integers. -/
inductive JVal : Type
  | jint (k : Int)
  | jobj (fields : List (List Char × Int))
deriving DecidableEq

/-- The key `"offset"` used by every cursor. -/
def offsetKey : List Char := ['o', 'f', 'f', 's', 'e', 't']

/-- `json.dumps` of a Python int (CPython decimal printing). -/
def intRepr (k : Int) : List Char :=
  if k < 0 then '-' :: natRepr (-k).toNat else natRepr k.toNat

/-- `json.dumps({key: k})` with the default separators: `{"key": k}`. -/
def dumpsObj1 (key : List Char) (k : Int) : List Char :=
  ['\x7b', '"'] ++ key ++ ['"', ':', ' '] ++ intRepr k ++ ['\x7d']

/-- JSON whitespace. -/
def isWs (c : Char) : Bool := c == ' ' || c == '\n' || c == '\t' || c == '\r'

def skipSpaces (cs : List Char) : List Char := cs.dropWhile isWs

/-- Split a leading run of decimal digits from the rest. -/
def takeDigitsL : List Char → List Char × List Char
  | [] => ([], [])
  | c :: cs =>
    if isDigit c then
      let p := takeDigitsL cs
      (c :: p.1, p.2)
    else ([], c :: cs)

/-- Parse the digit body of an integer literal whose sign is known. -/
def parseIntCore (neg : Bool) (cs : List Char) : Option (Int × List Char) :=
  match takeDigitsL cs with
  | ([], _) => none
  | (ds, rest) =>
    some (if neg then -(parseDigits ds : Int) else (parseDigits ds : Int), rest)

/-- Parse a JSON integer literal. -/
def parseInt : List Char → Option (Int × List Char)
  | [] => none
  | c :: cs => if c = '-' then parseIntCore true cs else parseIntCore false (c :: cs)

/-- Parse the body of a (plain, escape-free) string literal after the
opening quote, up to the closing quote. -/
def parseKeyBody : List Char → Option (List Char × List Char)
  | [] => none
  | c :: cs =>
    if c = '"' then some ([], cs)
    else (parseKeyBody cs).map (fun p => (c :: p.1, p.2))

/-- Parse a string literal. -/
def parseKey (cs : List Char) : Option (List Char × List Char) :=
  match cs with
  | [] => none
  | c :: cs2 => if c = '"' then parseKeyBody cs2 else none

/-- `json.loads` on the cursor grammar: a bare integer, the empty object,
or a one-field object with an integer value. -/
def parseJson (cs : List Char) : Option JVal :=
  match skipSpaces cs with
  | [] => none
  | c :: cs2 =>
    if c = '\x7b' then
      match skipSpaces cs2 with
      | [] => none
      | c2 :: cs4 =>
        if c2 = '\x7d' then
          if skipSpaces cs4 = [] then some (JVal.jobj []) else none
        else
          match parseKey (c2 :: cs4) with
          | none => none
          | some (key, cs5) =>
            match skipSpaces cs5 with
            | ':' :: cs6 =>
              match parseInt (skipSpaces cs6) with
              | none => none
              | some (v, cs7) =>
                match skipSpaces cs7 with
                | '\x7d' :: cs8 =>
                  if skipSpaces cs8 = [] then some (JVal.jobj [(key, v)]) else none
                | _ => none
            | _ => none
    else
      match parseInt (c :: cs2) with
      | none => none
      | some (v, rest) =>
        if skipSpaces rest = [] then some (JVal.jint v) else none

/-! ### Cursor encoding and decoding

`about-us-scraper-service/api/utils/pagination.py`:
`encode_cursor(data) = b64encode(json.dumps(data).encode()).decode()` and
`decode_cursor(cursor) = json.loads(b64decode(cursor).decode())`, the
latter raising `PaginationError` when any step fails.  The strings
involved are ASCII, so `str.encode()` is `Char.toNat` per character and
`bytes.decode()` accepts exactly the single-byte (< 128) fragment. -/

/-- `str.encode()` on the ASCII strings the module produces. -/
def strBytes (cs : List Char) : List Nat := cs.map Char.toNat

/-- `bytes.decode()`, modelled on the ASCII fragment of UTF-8: multi-byte
sequences do not occur in any cursor the code produces. -/
def bytesStr (bs : List Nat) : Option (List Char) :=
  if bs.all (· < 128) then some (bs.map Char.ofNat) else none

/-- The single error raised by pagination operations
(`PaginationError`; the carried message is not modelled). -/
inductive PaginationError : Type
  | invalidCursor
deriving DecidableEq

/-- `encode_cursor({"offset": k})`. -/
def encode_cursor (k : Int) : List Char :=
  b64encode (strBytes (dumpsObj1 offsetKey k))

/-- The fallible body of `decode_cursor`: base64-decode, UTF-8-decode,
JSON-parse. -/
def cursorPipeline (cs : List Char) : Option JVal :=
  (b64decode cs).bind fun bs => (bytesStr bs).bind parseJson

/-- `decode_cursor` of the `about-us-scraper-service` pagination module:
raises `PaginationError` when base64 decoding or JSON parsing fails. -/
def decode_cursor (cs : List Char) : Except PaginationError JVal :=
  match b64decode cs with
  | none => .error .invalidCursor
  | some bs =>
    match bytesStr bs with
    | none => .error .invalidCursor
    | some s =>
      match parseJson s with
      | none => .error .invalidCursor
      | some v => .ok v

/-- `decode_cursor` of `api/utils/pagination.py`: returns
`(offset, is_valid)` and on any failure returns `(0, False)` instead of
raising. -/
def api_decode_cursor (cursor : Option (List Char)) : Int × Bool :=
  match cursor with
  | none => (0, true)
  | some cs =>
    if cs = [] then (0, true)
    else
      match cursorPipeline cs with
      | some (JVal.jobj fs) => ((fs.lookup offsetKey).getD 0, true)
      | some (JVal.jint _) => (0, false)
      | none => (0, false)

/-! ### The Paginator (`about-us-scraper-service/api/utils/pagination.py`) -/

/-- Result of a pagination operation (`PaginationResult`). -/
structure PaginationResult (α : Type) where
  items : List α
  has_more : Bool
  next_cursor : Option (List Char)
deriving DecidableEq

/-- Extract the starting offset from an optional cursor, as the body of
`Paginator.paginate` does: a missing or empty (falsy) cursor means offset
0; otherwise `decode_cursor` runs and `cursor_data.get("offset", 0)` reads
the offset (a non-dict decode result makes `.get` raise, which the
surrounding `except Exception` turns into a `PaginationError`). -/
def cursorOffset (cursor : Option (List Char)) : Except PaginationError Int :=
  match cursor with
  | none => .ok 0
  | some cs =>
    if cs = [] then .ok 0
    else
      match decode_cursor cs with
      | .error e => .error e
      | .ok (JVal.jobj fs) => .ok ((fs.lookup offsetKey).getD 0)
      | .ok (JVal.jint _) => .error .invalidCursor

/-- `Paginator.paginate(items, cursor)` with `items_per_page`: slice
`items[offset : offset + items_per_page]`, report whether more items
exist, and hand out the next cursor. -/
def paginate {α : Type} (items_per_page : Int) (items : List α)
    (cursor : Option (List Char)) : Except PaginationError (PaginationResult α) :=
  match cursorOffset cursor with
  | .error e => .error e
  | .ok offset =>
    let stop := offset + items_per_page
    let page_items := pySlice items offset stop
    let has_more : Bool := stop < (items.length : Int)
    .ok
      { items := page_items
        has_more := has_more
        next_cursor := if has_more then some (encode_cursor stop) else none }

/-! ### `api/utils/pagination.py` (`paginate_items` / `_calculate_pagination`) -/

/-- The pagination metadata computed by `PaginatedResult._calculate_pagination`. -/
structure ApiPaginationMeta where
  total_count : Nat
  remaining_count : Int
  has_more : Bool
  next_cursor : Option (List Char)
  previous_cursor : Option (List Char)
deriving DecidableEq

/-- The `start_index` computed from a cursor in `api/utils/pagination.py`:
any failure of the `try` block (bad base64, bad JSON, non-dict value)
falls back to 0. -/
def apiStartIndex (cursor : Option (List Char)) : Int :=
  match cursor with
  | none => 0
  | some cs =>
    if cs = [] then 0
    else
      match cursorPipeline cs with
      | some (JVal.jobj fs) => (fs.lookup offsetKey).getD 0
      | _ => 0

/-- `PaginatedResult._calculate_pagination`. -/
def api_calculate_pagination (total_count : Nat) (limit : Int)
    (cursor : Option (List Char)) : ApiPaginationMeta :=
  let start_index := apiStartIndex cursor
  let remaining_count := max 0 ((total_count : Int) - (start_index + limit))
  let has_more : Bool := remaining_count > 0
  { total_count := total_count
    remaining_count := remaining_count
    has_more := has_more
    next_cursor :=
      if has_more then some (encode_cursor (start_index + limit)) else none
    previous_cursor :=
      if start_index > 0 then some (encode_cursor (max 0 (start_index - limit)))
      else none }

/-- `paginate_items(items, limit, cursor)` of `api/utils/pagination.py`:
the items slice together with the metadata. -/
def api_paginate_items {α : Type} (items : List α) (limit : Int)
    (cursor : Option (List Char)) : List α × ApiPaginationMeta :=
  let start_index := apiStartIndex cursor
  (pySlice items start_index (start_index + limit),
    api_calculate_pagination items.length limit cursor)

/-- The client loop of the round-trip property: call `paginate`, follow
`next_cursor` while `has_more`, and concatenate the pages.  `fuel` bounds
the number of calls; `none` means the loop did not finish within `fuel`
calls (or hit an error or a missing cursor). -/
def paginateAll {α : Type} (L : Int) (items : List α) :
    Nat → Option (List Char) → Option (List α)
  | 0, _ => none
  | fuel + 1, cursor =>
    match paginate L items cursor with
    | .error _ => none
    | .ok r =>
      if r.has_more then
        match r.next_cursor with
        | some c =>
          (paginateAll L items fuel (some c)).map (fun rest => r.items ++ rest)
        | none => none
      else some r.items

/-! ### Token-bucket rate limiter (`api/middleware/rate_limit.py`)

State is the `key -> (tokens, last_update)` dictionary, modelled as an
association list with shadowing insert; timestamps (`time.time()`) are
passed explicitly as `now`. -/

structure RateLimiter where
  rate : ℚ
  burst_limit : ℚ
  tokens : List (String × ℚ × ℚ)

/-- `RateLimiter(requests_per_minute, burst_limit)`. -/
def mkRateLimiter (requests_per_minute : ℚ) (burst_limit : Nat) : RateLimiter :=
  { rate := requests_per_minute / 60
    burst_limit := (burst_limit : ℚ)
    tokens := [] }

/-- `_get_tokens`: refill up to `burst_limit` for the elapsed time. -/
def RateLimiter.getTokens (rl : RateLimiter) (key : String) (now : ℚ) : ℚ × ℚ :=
  match rl.tokens.lookup key with
  | none => (rl.burst_limit, now)
  | some (tokens, last_update) =>
      (min rl.burst_limit (tokens + (now - last_update) * rl.rate), now)

/-- `_update_tokens`: store the new `(tokens, last_update)` pair. -/
def RateLimiter.updateTokens (rl : RateLimiter) (key : String)
    (tokens last_update : ℚ) : RateLimiter :=
  { rl with tokens := (key, tokens, last_update) :: rl.tokens }

/-- `is_allowed`: admit and deduct a token when at least one is available,
else reject leaving the stored state untouched. -/
def RateLimiter.is_allowed (rl : RateLimiter) (key : String) (now : ℚ) :
    Bool × RateLimiter :=
  let p := rl.getTokens key now
  if p.1 ≥ 1 then (true, rl.updateTokens key (p.1 - 1) p.2)
  else (false, rl)

/-- `n` consecutive `is_allowed` calls for one key at one instant. -/
def RateLimiter.run (rl : RateLimiter) (key : String) (now : ℚ) :
    Nat → List Bool × RateLimiter
  | 0 => ([], rl)
  | n + 1 =>
    let p := rl.is_allowed key now
    let q := p.2.run key now n
    (p.1 :: q.1, q.2)

/-! ### Retry backoff (`api/utils/retry.py` and
`about-us-scraper-service/api/utils/retry.py`)

The random draws (`random.uniform(-0.25, 0.25)` resp. `random.random()`)
are passed explicitly so the schedule is a function of them. -/

structure RetryConfig where
  max_attempts : Nat
  initial_delay : ℚ
  max_delay : ℚ
  exponential_base : ℚ
  jitter : Bool

/-- `calculate_delay(attempt, config)` of `api/utils/retry.py`, with the
draw `v` of `random.uniform(-0.25, 0.25)` explicit: the capped exponential
delay, scaled by `(1 + v)` when jitter is on. -/
def calculate_delay (attempt : Nat) (config : RetryConfig) (v : ℚ) : ℚ :=
  let delay :=
    min (config.initial_delay * config.exponential_base ^ (attempt - 1))
      config.max_delay
  if config.jitter then delay * (1 + v) else delay

/-- The inline delay computation of the `about-us-scraper-service`
`retryable` wrapper at 0-based loop index `attempt`, with the draw `u` of
`random.random()` explicit: the capped exponential delay, scaled by
`(0.5 + u)` when jitter is on. -/
def aus_delay (attempt : Nat) (config : RetryConfig) (u : ℚ) : ℚ :=
  let delay :=
    min (config.initial_delay * config.exponential_base ^ attempt)
      config.max_delay
  if config.jitter then delay * (1/2 + u) else delay

/-- The delays `retry_async` sleeps between `max_attempts` failing
retryable attempts: one delay after each attempt `1 … max_attempts - 1`. -/
def retry_delays (config : RetryConfig) (draws : Nat → ℚ) : List ℚ :=
  (List.range (config.max_attempts - 1)).map
    (fun i => calculate_delay (i + 1) config (draws (i + 1)))

/-- The delays the `about-us-scraper-service` `retryable` wrapper sleeps
between `max_attempts` failing attempts (0-based loop indices
`0 … max_attempts - 2`). -/
def aus_retry_delays (config : RetryConfig) (draws : Nat → ℚ) : List ℚ :=
  (List.range (config.max_attempts - 1)).map
    (fun i => aus_delay i config (draws i))

/-! ### Request validators (`api/middleware/validation.py`) -/

structure RequestValidator where
  max_url_length : Nat
  allowed_schemes : List (List Char)
  blocked_domains : List (List Char)

/-- The validator with its constructor defaults. -/
def defaultValidator : RequestValidator :=
  { max_url_length := 2048
    allowed_schemes := [['h', 't', 't', 'p'], ['h', 't', 't', 'p', 's']]
    blocked_domains := [] }

/-- Split `scheme://rest` at the first `"://"`. -/
def splitScheme : List Char → Option (List Char × List Char)
  | [] => none
  | ':' :: '/' :: '/' :: rest => some ([], rest)
  | c :: cs => (splitScheme cs).map (fun p => (c :: p.1, p.2))

def isSchemeChar (c : Char) : Bool :=
  c.isAlpha || c.isDigit || c == '+' || c == '-' || c == '.'

/-- Model of the third-party `validators.url` predicate at the fidelity
the rejection table exercises: the URL must read `scheme://rest` with a
nonempty well-formed scheme and a nonempty remainder containing a dot
(`"not-a-url"` has no `"://"` and fails; `"ftp://x.com"` passes). -/
def validators_url (url : List Char) : Bool :=
  match splitScheme url with
  | none => false
  | some (scheme, rest) =>
    !scheme.isEmpty && scheme.all isSchemeChar && !rest.isEmpty &&
      rest.any (· == '.')

/-- `urllib.parse.urlparse(url).scheme` (lowercased scheme part). -/
def urlparse_scheme (url : List Char) : List Char :=
  match splitScheme url with
  | some (scheme, _) => scheme.map Char.toLower
  | none => []

/-- `urllib.parse.urlparse(url).netloc` (authority up to the next `/`). -/
def urlparse_netloc (url : List Char) : List Char :=
  match splitScheme url with
  | some (_, rest) => rest.takeWhile (fun c => !(c == '/'))
  | none => []

/-- `RequestValidator.validate_url`: error message, or `none` if valid. -/
def validate_url (v : RequestValidator) (url : List Char) : Option String :=
  if url.length > v.max_url_length then
    some ("URL length exceeds maximum of " ++ Nat.repr v.max_url_length ++
      " characters")
  else if !(validators_url url) then some "Invalid URL format"
  else
    let scheme := urlparse_scheme url
    if ¬ scheme ∈ v.allowed_schemes then
      some ("URL scheme must be one of: " ++
        String.intercalate ", " (v.allowed_schemes.map (fun s => String.mk s)))
    else
      let domain := (urlparse_netloc url).map Char.toLower
      if domain ∈ v.blocked_domains then some "Access to this domain is blocked"
      else if url.any (fun c =>
          c ∈ ['<', '>', '"', '\'', ';', '(', ')']) then
        some "URL contains invalid characters"
      else none

/-- The regex `^sk-[a-zA-Z0-9]{32,}$`. -/
def apiKeyMatch : List Char → Bool
  | 's' :: 'k' :: '-' :: rest =>
    rest.length ≥ 32 && rest.all (fun c => c.isAlpha || c.isDigit)
  | _ => false

/-- `RequestValidator.validate_api_key`: `None` for an absent/empty key,
`"API key is too short"` below 32 characters, then the regex check. -/
def validate_api_key (api_key : Option (List Char)) : Option String :=
  match api_key with
  | none => none
  | some k =>
    if k = [] then none
    else if k.length < 32 then some "API key is too short"
    else if apiKeyMatch k then none
    else some "Invalid API key format"

/-! ### Compression guard
(`about-us-scraper-service/api/middleware/compression.py`)

The brotli / gzip / zlib libraries are opaque to the service; each is a
pair of (possibly failing) byte functions, where `none` models a raised
library exception.  `compress_content` is the verification wrapper around
them. -/

structure Codec where
  comp : List Nat → Option (List Nat)
  decomp : List Nat → Option (List Nat)

/-- Compress and verify against one codec: any library failure or a
decompression mismatch yields `none`. -/
def compressVerify (c : Codec) (content : List Nat) : Option (List Nat) :=
  match c.comp content with
  | none => none
  | some compressed =>
    match c.decomp compressed with
    | none => none
    | some decompressed =>
      if decompressed = content then some compressed else none

/-- The codec `compress_content` dispatches to for an encoding. -/
def selectCodec (br gz fl : Codec) (encoding : List Char) : Option Codec :=
  if encoding = ['b', 'r'] then some br
  else if encoding = ['g', 'z', 'i', 'p'] then some gz
  else if encoding = ['d', 'e', 'f', 'l', 'a', 't', 'e'] then some fl
  else none

/-- `CompressionMiddleware.compress_content(content, encoding)` of
`about-us-scraper-service/api/middleware/compression.py`: dispatch on the
encoding, compress, then decompress and compare byte-for-byte; every
failure path returns `none`. -/
def compress_content (br gz fl : Codec) (content : List Nat)
    (encoding : List Char) : Option (List Nat) :=
  match selectCodec br gz fl encoding with
  | some c => compressVerify c content
  | none => none

/-- `CompressionMiddleware.compress_content(content, encoding)` of
`api/middleware/compression.py`: the same dispatch, but the library's
compressed output is returned directly — `none` only when the library
raises or the encoding is unsupported; there is no decompress-and-compare
verification. -/
def api_compress_content (br gz fl : Codec) (content : List Nat)
    (encoding : List Char) : Option (List Nat) :=
  match selectCodec br gz fl encoding with
  | some c => c.comp content
  | none => none

/-! ### Theorems -/

theorem pyIndex_ofNat (n : Nat) (k : Nat) : pyIndex n (k : Int) = min k n := by
  unfold pyIndex
  rw [if_neg (by omega)]
  simp

theorem pySlice_natCast {α : Type} (l : List α) (i j : Nat) :
    pySlice l (i : Int) (j : Int) = (l.take j).drop i := by
  unfold pySlice
  rw [pyIndex_ofNat, pyIndex_ofNat]
  rcases Nat.le_total i l.length with h2 | h2
  · rw [Nat.min_eq_left h2]
    rcases Nat.le_total j l.length with h | h
    · rw [Nat.min_eq_left h]
    · rw [Nat.min_eq_right h, List.take_length, List.take_of_length_le h]
  · have e1 : (l.take (j ⊓ l.length)).drop l.length = [] :=
      List.drop_eq_nil_of_le (by rw [List.length_take]; omega)
    have e2 : (l.take j).drop i = [] :=
      List.drop_eq_nil_of_le (le_trans (by rw [List.length_take]; omega) h2)
    rw [Nat.min_eq_right h2, e1, e2]

theorem digitVal_digitChar {d : Nat} (h : d < 10) : digitVal (digitChar d) = d := by
  interval_cases d <;> decide

theorem isDigit_digitChar {d : Nat} (h : d < 10) : isDigit (digitChar d) = true := by
  interval_cases d <;> decide

theorem parseDigits_append (a b : List Char) :
    parseDigits (a ++ b) = b.foldl (fun a c => a * 10 + digitVal c) (parseDigits a) := by
  simp [parseDigits, List.foldl_append]

theorem parseDigits_rev_map (L : List Nat) (h : ∀ d ∈ L, d < 10) :
    parseDigits ((L.map digitChar).reverse) = Nat.ofDigits 10 L := by
  induction L with
  | nil => simp [parseDigits, Nat.ofDigits]
  | cons d L ih =>
    have hd : d < 10 := h d (by simp)
    have hL : ∀ x ∈ L, x < 10 := fun x hx => h x (by simp [hx])
    simp only [List.map_cons, List.reverse_cons]
    rw [parseDigits_append, ih hL]
    simp [Nat.ofDigits_cons, digitVal_digitChar hd]
    ring

theorem parseDigits_natRepr (n : Nat) : parseDigits (natRepr n) = n := by
  unfold natRepr
  by_cases h : n = 0
  · simp [h, parseDigits, digitVal]
  · rw [if_neg h, parseDigits_rev_map _ (fun d hd => Nat.digits_lt_base (by norm_num) hd),
      Nat.ofDigits_digits]

theorem natRepr_all_digits (n : Nat) : ∀ c ∈ natRepr n, isDigit c = true := by
  unfold natRepr
  by_cases h : n = 0
  · simp [h]; decide
  · rw [if_neg h]
    intro c hc
    rw [List.mem_reverse, List.mem_map] at hc
    obtain ⟨d, hd, rfl⟩ := hc
    exact isDigit_digitChar (Nat.digits_lt_base (by norm_num) hd)

theorem natRepr_ne_nil (n : Nat) : natRepr n ≠ [] := by
  unfold natRepr
  by_cases h : n = 0
  · simp [h]
  · rw [if_neg h]
    simp [Nat.digits_ne_nil_iff_ne_zero.mpr h]

theorem b64Val_b64Char : ∀ n : Nat, n < 64 → b64Val (b64Char n) = some n := by
  decide

theorem b64Char_ne_pad : ∀ n : Nat, n < 64 → b64Char n ≠ '=' := by
  decide

theorem b64encode_eq_nil {bs : List Nat} : b64encode bs = [] ↔ bs = [] := by
  cases bs with
  | nil => simp [b64encode]
  | cons b1 t =>
    cases t with
    | nil => simp [b64encode]
    | cons b2 t2 =>
      cases t2 with
      | nil => simp [b64encode]
      | cons b3 r => simp [b64encode]

theorem b64_roundtrip : ∀ bs : List Nat, (∀ b ∈ bs, b < 256) →
    b64decode (b64encode bs) = some bs
  | [], _ => rfl
  | [b1], h => by
    have h1 : b1 < 256 := h b1 (by simp)
    simp only [b64encode, b64decode, if_pos rfl, b64final,
      b64Val_b64Char _ (show b1 / 4 < 64 by omega),
      b64Val_b64Char _ (show b1 % 4 * 16 < 64 by omega), if_pos rfl]
    have e : b1 / 4 * 4 + b1 % 4 * 16 / 16 = b1 := by omega
    rw [e]
    simp
  | [b1, b2], h => by
    have h1 : b1 < 256 := h b1 (by simp)
    have h2 : b2 < 256 := h b2 (by simp)
    simp only [b64encode, b64decode, if_pos rfl, b64final,
      b64Val_b64Char _ (show b1 / 4 < 64 by omega),
      b64Val_b64Char _ (show b1 % 4 * 16 + b2 / 16 < 64 by omega),
      b64Val_b64Char _ (show b2 % 16 * 4 < 64 by omega),
      if_neg (b64Char_ne_pad _ (show b2 % 16 * 4 < 64 by omega)), if_pos rfl]
    have f1 : b1 / 4 * 4 + (b1 % 4 * 16 + b2 / 16) / 16 = b1 := by omega
    have f2 : (b1 % 4 * 16 + b2 / 16) % 16 * 16 + b2 % 16 * 4 / 4 = b2 := by omega
    rw [f1, f2]
    simp
  | b1 :: b2 :: b3 :: rest, h => by
    have h1 : b1 < 256 := h b1 (by simp)
    have h2 : b2 < 256 := h b2 (by simp)
    have h3 : b3 < 256 := h b3 (by simp)
    have hrest : ∀ b ∈ rest, b < 256 := fun b hb => h b (by simp [hb])
    have ih := b64_roundtrip rest hrest
    have e1 := b64Val_b64Char _ (show b1 / 4 < 64 by omega)
    have e2 := b64Val_b64Char _ (show b1 % 4 * 16 + b2 / 16 < 64 by omega)
    have e3 := b64Val_b64Char _ (show b2 % 16 * 4 + b3 / 64 < 64 by omega)
    have e4 := b64Val_b64Char _ (show b3 % 64 < 64 by omega)
    have f1 : b1 / 4 * 4 + (b1 % 4 * 16 + b2 / 16) / 16 = b1 := by omega
    have f2 : (b1 % 4 * 16 + b2 / 16) % 16 * 16 + (b2 % 16 * 4 + b3 / 64) / 4 = b2 := by
      omega
    have f3 : (b2 % 16 * 4 + b3 / 64) % 4 * 64 + b3 % 64 = b3 := by omega
    cases hr : rest with
    | nil =>
      subst hr
      simp only [b64encode, b64decode, if_pos rfl, b64final, e1, e2, e3, e4,
        if_neg (b64Char_ne_pad _ (show b2 % 16 * 4 + b3 / 64 < 64 by omega)),
        if_neg (b64Char_ne_pad _ (show b3 % 64 < 64 by omega)), b64group]
      rw [f1, f2, f3]
      simp
    | cons x xs =>
      have hne : b64encode rest ≠ [] := by
        rw [hr]
        intro hc
        exact absurd (b64encode_eq_nil.mp hc) (by simp)
      rw [← hr] at *
      simp only [b64encode, b64decode, if_neg hne, e1, e2, e3, e4, ih,
        Option.map_some, b64group]
      rw [f1, f2, f3]
      simp

theorem isWs_digit {c : Char} (h : isDigit c = true) : isWs c = false := by
  by_contra hw
  rw [Bool.not_eq_false] at hw
  simp only [isWs, Bool.or_eq_true, beq_iff_eq] at hw
  rcases hw with ((rfl | rfl) | rfl) | rfl <;> revert h <;> decide

theorem dash_ne_digit {c : Char} (h : isDigit c = true) : ¬ c = '-' := by
  rintro rfl
  revert h
  decide

theorem skipSpaces_cons_not_ws {c : Char} {r : List Char} (h : isWs c = false) :
    skipSpaces (c :: r) = c :: r := by
  simp [skipSpaces, List.dropWhile_cons, h]

theorem takeDigitsL_append {ds r : List Char} (h1 : ∀ c ∈ ds, isDigit c = true)
    (h2 : ∀ c, r.head? = some c → isDigit c = false) :
    takeDigitsL (ds ++ r) = (ds, r) := by
  induction ds with
  | nil =>
    cases r with
    | nil => rfl
    | cons c t =>
      have := h2 c rfl
      simp [takeDigitsL, this]
  | cons d ds ih =>
    have hd : isDigit d = true := h1 d (by simp)
    have hds : ∀ c ∈ ds, isDigit c = true := fun c hc => h1 c (by simp [hc])
    simp [takeDigitsL, hd, ih hds]

theorem parseIntCore_natRepr (neg : Bool) (n : Nat) (r : List Char)
    (h2 : ∀ c, r.head? = some c → isDigit c = false) :
    parseIntCore neg (natRepr n ++ r) =
      some (if neg then -(n : Int) else (n : Int), r) := by
  rcases hnil : natRepr n with _ | ⟨c, t⟩
  · exact absurd hnil (natRepr_ne_nil _)
  · have htake : takeDigitsL (c :: (t ++ r)) = (c :: t, r) := by
      have := @takeDigitsL_append (natRepr n) r (natRepr_all_digits n) h2
      rw [hnil] at this
      simpa using this
    have hpd : parseDigits (c :: t) = n := by
      rw [← hnil]
      exact parseDigits_natRepr n
    simp only [List.cons_append]
    simp [parseIntCore, htake, hpd]

theorem parseInt_intRepr (k : Int) (r : List Char)
    (h2 : ∀ c, r.head? = some c → isDigit c = false) :
    parseInt (intRepr k ++ r) = some (k, r) := by
  unfold intRepr
  by_cases hk : k < 0
  · rw [if_pos hk, List.cons_append]
    have hne : ((-k).toNat : Int) = -k := Int.toNat_of_nonneg (by omega)
    simp [parseInt, parseIntCore_natRepr true (-k).toNat r h2, hne]
  · rw [if_neg hk]
    have hne : (k.toNat : Int) = k := Int.toNat_of_nonneg (by omega)
    rcases hnil : natRepr k.toNat with _ | ⟨c, t⟩
    · exact absurd hnil (natRepr_ne_nil _)
    · have hc : isDigit c = true := natRepr_all_digits _ c (by rw [hnil]; simp)
      have hcore := parseIntCore_natRepr false k.toNat r h2
      rw [hnil] at hcore
      simp only [List.cons_append] at hcore ⊢
      simp only [parseInt, if_neg (dash_ne_digit hc), hcore, hne]
      simp

theorem intRepr_head_not_ws (k : Int) :
    ∀ c, (intRepr k).head? = some c → isWs c = false := by
  unfold intRepr
  by_cases hk : k < 0
  · rw [if_pos hk]
    intro c hc
    simp only [List.head?_cons, Option.some_inj] at hc
    subst hc
    decide
  · rw [if_neg hk]
    intro c hc
    rcases hnil : natRepr k.toNat with _ | ⟨d, t⟩
    · exact absurd hnil (natRepr_ne_nil _)
    · rw [hnil] at hc
      simp only [List.head?_cons, Option.some_inj] at hc
      subst hc
      exact isWs_digit (natRepr_all_digits _ d (by rw [hnil]; simp))

theorem intRepr_ne_nil (k : Int) : intRepr k ≠ [] := by
  unfold intRepr
  by_cases hk : k < 0
  · rw [if_pos hk]
    simp
  · rw [if_neg hk]
    exact natRepr_ne_nil _

/-- Parsing recovers exactly the object that `json.dumps` rendered. -/
theorem parseJson_dumpsObj1 (k : Int) :
    parseJson (dumpsObj1 offsetKey k) = some (JVal.jobj [(offsetKey, k)]) := by
  have hir : skipSpaces (intRepr k ++ ['\x7d']) = intRepr k ++ ['\x7d'] := by
    rcases hnil : intRepr k with _ | ⟨c, t⟩
    · exact absurd hnil (intRepr_ne_nil k)
    · have hcw : isWs c = false := intRepr_head_not_ws k c (by rw [hnil]; rfl)
      simp only [List.cons_append]
      exact skipSpaces_cons_not_ws hcw
  have hpi : parseInt (intRepr k ++ ['\x7d']) = some (k, ['\x7d']) :=
    parseInt_intRepr k ['\x7d'] (by intro c hc; simp at hc; subst hc; decide)
  have hir2 : List.dropWhile isWs (intRepr k ++ ['\x7d']) = intRepr k ++ ['\x7d'] := hir
  simp [dumpsObj1, offsetKey, parseJson, parseKey, parseKeyBody, skipSpaces,
    List.dropWhile, isWs, hir2, hpi]

theorem strBytes_lt_256 (cs : List Char) (h : ∀ c ∈ cs, c.toNat < 128) :
    ∀ b ∈ strBytes cs, b < 256 := by
  intro b hb
  rw [strBytes, List.mem_map] at hb
  obtain ⟨c, hc, rfl⟩ := hb
  exact lt_trans (h c hc) (by norm_num)

theorem bytesStr_strBytes (cs : List Char) (h : ∀ c ∈ cs, c.toNat < 128) :
    bytesStr (strBytes cs) = some cs := by
  rw [bytesStr, if_pos]
  · rw [strBytes, List.map_map]
    congr 1
    rw [show Char.ofNat ∘ Char.toNat = id from funext Char.ofNat_toNat, List.map_id]
  · rw [strBytes, List.all_eq_true]
    intro b hb
    rw [List.mem_map] at hb
    obtain ⟨c, hc, rfl⟩ := hb
    simpa using h c hc

theorem digit_char_ascii {c : Char} (h : isDigit c = true) : c.toNat < 128 := by
  simp only [isDigit, Bool.and_eq_true, decide_eq_true_eq] at h
  have h9 : c.toNat ≤ 57 := h.2
  omega

theorem intRepr_ascii (k : Int) : ∀ c ∈ intRepr k, c.toNat < 128 := by
  intro c h
  unfold intRepr at h
  by_cases hk : k < 0
  · rw [if_pos hk] at h
    rcases List.mem_cons.mp h with rfl | h2
    · decide
    · exact digit_char_ascii (natRepr_all_digits (-k).toNat c h2)
  · rw [if_neg hk] at h
    exact digit_char_ascii (natRepr_all_digits k.toNat c h)

theorem dumpsObj1_ascii (k : Int) : ∀ c ∈ dumpsObj1 offsetKey k, c.toNat < 128 := by
  intro c hc
  rw [dumpsObj1] at hc
  simp only [List.append_assoc, List.mem_append] at hc
  rcases hc with h | h | h | h | h
  · fin_cases h <;> decide
  · rw [offsetKey] at h
    fin_cases h <;> decide
  · fin_cases h <;> decide
  · exact intRepr_ascii k c h
  · fin_cases h <;> decide

/-- Cursor idempotence at the pipeline level: decoding an encoded offset
object recovers it. -/
theorem cursorPipeline_encode (k : Int) :
    cursorPipeline (encode_cursor k) = some (JVal.jobj [(offsetKey, k)]) := by
  unfold cursorPipeline encode_cursor
  rw [b64_roundtrip _ (strBytes_lt_256 _ (dumpsObj1_ascii k))]
  rw [Option.some_bind]
  rw [bytesStr_strBytes _ (dumpsObj1_ascii k)]
  rw [Option.some_bind]
  exact parseJson_dumpsObj1 k

/-- `decode_cursor(encode_cursor({"offset": k})) = {"offset": k}`. -/
theorem decode_cursor_encode (k : Int) :
    decode_cursor (encode_cursor k) = .ok (JVal.jobj [(offsetKey, k)]) := by
  have h := cursorPipeline_encode k
  unfold cursorPipeline at h
  unfold decode_cursor
  rcases hb : b64decode (encode_cursor k) with _ | bs
  · rw [hb] at h
    simp at h
  · rw [hb] at h
    rw [Option.some_bind] at h
    rcases hs : bytesStr bs with _ | s
    · rw [hs] at h
      simp at h
    · rw [hs] at h
      rw [Option.some_bind] at h
      simp [hs, h]

theorem encode_cursor_ne_nil (k : Int) : encode_cursor k ≠ [] := by
  unfold encode_cursor
  intro hc
  have := b64encode_eq_nil.mp hc
  unfold strBytes dumpsObj1 at this
  simp at this

/-- Offset recovery: a cursor produced by `encode_cursor` is accepted and
yields exactly the offset it carries. -/
theorem cursorOffset_encode (k : Int) :
    cursorOffset (some (encode_cursor k)) = .ok k := by
  have h := decode_cursor_encode k
  simp [cursorOffset, encode_cursor_ne_nil k, h, offsetKey, List.lookup]

/-- `paginate` on an encoded offset `o`, stated at the offset level. -/
theorem paginate_encoded {α : Type} (L : Int) (items : List α) (o : Int) :
    paginate L items (some (encode_cursor o)) =
      .ok { items := pySlice items o (o + L)
            has_more := ((o + L < (items.length : Int) : Bool))
            next_cursor :=
              if (o + L < (items.length : Int) : Bool)
              then some (encode_cursor (o + L)) else none } := by
  unfold paginate
  rw [cursorOffset_encode]

/-- `paginate` with no cursor starts at offset 0. -/
theorem paginate_none {α : Type} (L : Int) (items : List α) :
    paginate L items none =
      .ok { items := pySlice items 0 L
            has_more := ((L < (items.length : Int) : Bool))
            next_cursor :=
              if (L < (items.length : Int) : Bool)
              then some (encode_cursor L) else none } := by
  unfold paginate cursorOffset
  simp

theorem take_drop_chunk {α : Type} {l : List α} {o m : Nat} (h1 : o ≤ m)
    (h2 : m ≤ l.length) : (l.take m).drop o ++ l.drop m = l.drop o := by
  conv_rhs => rw [← List.take_append_drop m l]
  rw [List.drop_append_eq_append_drop]
  congr 1
  have : (l.take m).length = m := List.length_take_of_le h2
  rw [this]
  rw [Nat.sub_eq_zero_of_le h1, List.drop_zero]

theorem pySlice_chunk {α : Type} (items : List α) (o L : Nat) :
    pySlice items (o : Int) ((o : Int) + (L : Int)) = (items.take (o + L)).drop o := by
  rw [show (o : Int) + (L : Int) = ((o + L : Nat) : Int) by push_cast; ring,
    pySlice_natCast]

theorem paginate_encoded_nat {α : Type} (L o : Nat) (items : List α) :
    paginate (L : Int) items (some (encode_cursor (o : Int))) =
      .ok { items := (items.take (o + L)).drop o
            has_more := decide (o + L < items.length)
            next_cursor :=
              if o + L < items.length
              then some (encode_cursor ((o + L : Nat) : Int)) else none } := by
  rw [paginate_encoded, pySlice_chunk]
  have hcast : ((o : Int) + (L : Int)) = ((o + L : Nat) : Int) := by push_cast; ring
  rw [hcast]
  have hdec : (((o + L : Nat) : Int) < (items.length : Int)) ↔ o + L < items.length := by
    exact_mod_cast Iff.rfl
  simp only [decide_eq_decide.mpr hdec, decide_eq_true_eq]

theorem paginateAll_encoded {α : Type} (L : Nat) (hL : 1 ≤ L) (items : List α) :
    ∀ fuel o : Nat, items.length - o < fuel →
      paginateAll (L : Int) items fuel (some (encode_cursor (o : Int))) =
        some (items.drop o) := by
  intro fuel
  induction fuel with
  | zero => omega
  | succ fuel ih =>
    intro o hfuel
    rw [paginateAll, paginate_encoded_nat]
    by_cases h : o + L < items.length
    · simp only [if_pos h, decide_eq_true_eq]
      rw [ih (o + L) (by omega)]
      have hchunk := @take_drop_chunk α items o (o + L)
        (by omega) (by omega)
      simp [hchunk]
    · simp only [if_neg h]
      simp [h, List.take_of_length_le (by omega : items.length ≤ o + L)]

theorem lookup_updateTokens (rl : RateLimiter) (key : String) (t n : ℚ) :
    (rl.updateTokens key t n).tokens.lookup key = some (t, n) := by
  simp [RateLimiter.updateTokens, List.lookup]

/-- Burst behaviour from a stored state of `j` whole tokens recorded at
the very instant of the calls: the next `j` calls are admitted, the rest
rejected. -/
theorem run_from (key : String) (now : ℚ) (b : Nat) :
    ∀ (n j : Nat) (rl : RateLimiter), j ≤ b → rl.burst_limit = (b : ℚ) →
      rl.tokens.lookup key = some ((j : ℚ), now) →
      (rl.run key now n).1 =
        List.replicate (min n j) true ++ List.replicate (n - j) false := by
  intro n
  induction n with
  | zero => simp [RateLimiter.run]
  | succ n ih =>
    intro j rl hj hb hl
    have hget : rl.getTokens key now = ((j : ℚ), now) := by
      rw [RateLimiter.getTokens, hl]
      simp only [hb, sub_self, zero_mul, add_zero]
      rw [min_eq_right (by exact_mod_cast hj)]
    by_cases hj1 : 1 ≤ j
    · have hq : (1 : ℚ) ≤ (j : ℚ) := by exact_mod_cast hj1
      have hcast : (j : ℚ) - 1 = ((j - 1 : Nat) : ℚ) := by
        push_cast [hj1]
        ring
      have hstep : rl.is_allowed key now =
          (true, rl.updateTokens key ((j : ℚ) - 1) now) := by
        simp [RateLimiter.is_allowed, hget, hq]
      rw [RateLimiter.run, hstep]
      have hrec := ih (j - 1) (rl.updateTokens key ((j : ℚ) - 1) now)
        (by omega) hb (by rw [lookup_updateTokens, hcast])
      simp only [hrec]
      rw [show min (n + 1) j = min n (j - 1) + 1 by omega,
        show n + 1 - j = n - (j - 1) by omega, List.replicate_succ]
      simp
    · have hj0 : j = 0 := by omega
      subst hj0
      have hstep : rl.is_allowed key now = (false, rl) := by
        simp [RateLimiter.is_allowed, hget]
      rw [RateLimiter.run, hstep]
      have hrec := ih 0 rl (by omega) hb hl
      simp only [hrec]
      simp [List.replicate_succ]

theorem run_zero_burst (rpm : ℚ) (key : String) (now : ℚ) :
    ∀ n : Nat, ((mkRateLimiter rpm 0).run key now n).1 = List.replicate n false := by
  intro n
  induction n with
  | zero => simp [RateLimiter.run]
  | succ n ih =>
    have hstep : (mkRateLimiter rpm 0).is_allowed key now =
        (false, mkRateLimiter rpm 0) := by
      simp [RateLimiter.is_allowed, RateLimiter.getTokens, mkRateLimiter,
        List.lookup]
    rw [RateLimiter.run, hstep]
    simp only [ih]
    simp [List.replicate_succ]

/-! ### Retry schedule lemmas -/

/-- With jitter off, both retry implementations sleep exactly the capped
exponential schedule, independent of the random draws. -/
theorem retry_delays_no_jitter (config : RetryConfig) (draws draws2 : Nat → ℚ)
    (h : config.jitter = false) :
    retry_delays config draws =
      (List.range (config.max_attempts - 1)).map
        (fun i => min (config.initial_delay * config.exponential_base ^ i)
          config.max_delay) ∧
    aus_retry_delays config draws2 =
      (List.range (config.max_attempts - 1)).map
        (fun i => min (config.initial_delay * config.exponential_base ^ i)
          config.max_delay) := by
  constructor
  · unfold retry_delays calculate_delay
    simp [h]
  · unfold aus_retry_delays aus_delay
    simp [h]

theorem getTokens_snd (rl : RateLimiter) (key : String) (now : ℚ) :
    (rl.getTokens key now).2 = now := by
  unfold RateLimiter.getTokens
  rcases rl.tokens.lookup key with _ | ⟨t, lu⟩ <;> rfl

theorem apiStartIndex_encode (k : Int) :
    apiStartIndex (some (encode_cursor k)) = k := by
  have h := cursorPipeline_encode k
  simp [apiStartIndex, encode_cursor_ne_nil k, h, offsetKey, List.lookup]

theorem pyIndex_ge_len {n : Nat} {o : Int} (h : (n : Int) ≤ o) :
    pyIndex n o = n := by
  unfold pyIndex
  rw [if_neg (by omega)]
  have : n ≤ o.toNat := by omega
  omega

theorem pySlice_offscreen {α : Type} (items : List α) {o : Int} (j : Int)
    (h : (items.length : Int) ≤ o) : pySlice items o j = [] := by
  unfold pySlice
  rw [pyIndex_ge_len h]
  exact List.drop_eq_nil_of_le (by rw [List.length_take]; omega)

/-- With a zero page size, the loop cursor is a fixpoint: no fuel ever
completes the traversal of a nonempty list. -/
theorem paginateAll_zero_fix {α : Type} (items : List α)
    (hne : 0 < items.length) :
    ∀ fuel : Nat, paginateAll 0 items fuel (some (encode_cursor 0)) = none := by
  intro fuel
  induction fuel with
  | zero => rfl
  | succ fuel ih =>
    have hc : ((0 : Nat) : Int) = (0 : Int) := by norm_num
    have hstep := paginate_encoded_nat 0 0 items
    simp only [Nat.add_zero, Nat.zero_add, hc] at hstep
    rw [paginateAll, hstep]
    simp [hne, ih]

/-! ### Claim theorems -/

/-- C1: Token bucket monotonicity — for a key with no prior limiter state
and burst limit `b`, among `n` consecutive `is_allowed` calls for that key
with no elapsed time between them, the first `min n b` calls return `true`
and every later call returns `false` (so exactly `min n b` admissions). -/
theorem C1_token_bucket_monotonic (requests_per_minute : ℚ) (b : Nat)
    (key : String) (now : ℚ) (n : Nat) :
    ((mkRateLimiter requests_per_minute b).run key now n).1 =
      List.replicate (min n b) true ++ List.replicate (n - b) false := by
  cases n with
  | zero => simp [RateLimiter.run]
  | succ n =>
    by_cases hb : 1 ≤ b
    · have hget : (mkRateLimiter requests_per_minute b).getTokens key now =
          ((b : ℚ), now) := by
        simp [mkRateLimiter, RateLimiter.getTokens, List.lookup]
      have hq : (1 : ℚ) ≤ (b : ℚ) := by exact_mod_cast hb
      have hstep : (mkRateLimiter requests_per_minute b).is_allowed key now =
          (true, (mkRateLimiter requests_per_minute b).updateTokens key
            ((b : ℚ) - 1) now) := by
        simp [RateLimiter.is_allowed, hget, hq]
      rw [RateLimiter.run, hstep]
      have hcast : (b : ℚ) - 1 = ((b - 1 : Nat) : ℚ) := by
        push_cast [hb]
        ring
      have hrec := run_from key now b n (b - 1)
        ((mkRateLimiter requests_per_minute b).updateTokens key ((b : ℚ) - 1) now)
        (by omega) (by simp [mkRateLimiter, RateLimiter.updateTokens])
        (by rw [lookup_updateTokens, hcast])
      simp only [hrec]
      rw [show min (n + 1) b = min n (b - 1) + 1 by omega,
        show n + 1 - b = n - (b - 1) by omega, List.replicate_succ]
      simp
    · have hb0 : b = 0 := by omega
      subst hb0
      rw [run_zero_burst]
      simp

/-- C5 counterexample: with `requests_per_minute = 1` and
`burst_limit = 1`, an admitted call at time 0 stores `("k", 0, 0)`; the
rejected call at time 1 leaves the dictionary exactly as it was — the
stored pair still reads `(0, 0)`, so the timestamp was NOT refreshed to 1
as the claim asserts of rejected calls. -/
theorem C5_counterexample :
    (((mkRateLimiter 1 1).is_allowed "k" 0).2.is_allowed "k" 1).1 = false ∧
    (((mkRateLimiter 1 1).is_allowed "k" 0).2.is_allowed "k" 1).2.tokens =
      [("k", 0, 0)] ∧
    (0 : ℚ) ≠ 1 := by
  have e1 : (mkRateLimiter 1 1).is_allowed "k" 0 =
      (true, RateLimiter.mk (1/60) 1 [("k", (0 : ℚ), (0 : ℚ))]) := by
    unfold mkRateLimiter RateLimiter.is_allowed RateLimiter.getTokens
      RateLimiter.updateTokens
    norm_num [List.lookup]
  have e2 : (RateLimiter.mk (1/60) 1 [("k", (0 : ℚ), (0 : ℚ))]).is_allowed "k" 1 =
      (false, RateLimiter.mk (1/60) 1 [("k", (0 : ℚ), (0 : ℚ))]) := by
    unfold RateLimiter.is_allowed RateLimiter.getTokens
    norm_num [List.lookup]
  rw [e1]
  simp only [e2]
  norm_num

/-- C5 amended: an admitted `is_allowed` call stores
`(tokens - 1, now)` for the key, never pushing the count below zero; a
rejected call leaves the stored dictionary completely unchanged (neither
the token count nor the timestamp is touched). -/
theorem C5_state_effect (rl : RateLimiter) (key : String) (now : ℚ) :
    ((rl.is_allowed key now).1 = true →
      (rl.is_allowed key now).2.tokens.lookup key =
        some ((rl.getTokens key now).1 - 1, now) ∧
      0 ≤ (rl.getTokens key now).1 - 1) ∧
    ((rl.is_allowed key now).1 = false → (rl.is_allowed key now).2 = rl) := by
  unfold RateLimiter.is_allowed
  by_cases h : (rl.getTokens key now).1 ≥ 1
  · simp only [if_pos h]
    refine ⟨fun _ => ⟨?_, by linarith⟩, fun hc => absurd hc (by simp)⟩
    rw [lookup_updateTokens, getTokens_snd]
  · simp only [if_neg h]
    exact ⟨fun hc => absurd hc (by simp), fun _ => trivial⟩

/-- C5 witness: the admitted branch at a fresh limiter
(`burst = 10`, so the first call is admitted and stores `(9, 0)`), and the
rejected branch at a zero-burst limiter (state unchanged). -/
theorem C5_state_effect_witness :
    ((mkRateLimiter 60 10).is_allowed "k" 0).2.tokens.lookup "k" =
      some (((mkRateLimiter 60 10).getTokens "k" 0).1 - 1, 0) ∧
    ((mkRateLimiter 60 0).is_allowed "k" 0).2 = mkRateLimiter 60 0 := by
  have h1 : ((mkRateLimiter 60 10).is_allowed "k" 0).1 = true := by
    unfold mkRateLimiter RateLimiter.is_allowed RateLimiter.getTokens
    norm_num [List.lookup]
  have h2 : ((mkRateLimiter 60 0).is_allowed "k" 0).1 = false := by
    unfold mkRateLimiter RateLimiter.is_allowed RateLimiter.getTokens
    norm_num [List.lookup]
  constructor
  · exact ((C5_state_effect (mkRateLimiter 60 10) "k" 0).1 h1).1
  · exact (C5_state_effect (mkRateLimiter 60 0) "k" 0).2 h2

/-- C2 counterexample: with page size 0 (a value the claim's "every page
size L" includes) and the one-element list `[0]`, the very first
`paginate` call returns an empty page, `has_more = true` and a cursor for
the same offset 0, and no number of loop iterations ever completes the
traversal — the loop visits nothing, so the concatenation never equals the
list. -/
theorem C2_counterexample :
    paginate 0 ([0] : List Nat) none =
      .ok { items := [], has_more := true, next_cursor := some (encode_cursor 0) } ∧
    cursorOffset (some (encode_cursor 0)) = .ok 0 ∧
    (∀ fuel : Nat, paginateAll 0 ([0] : List Nat) fuel none = none) ∧
    ([0] : List Nat) ≠ [] := by
  refine ⟨?_, cursorOffset_encode 0, ?_, by simp⟩
  · rw [paginate_none]
    norm_num [pySlice, pyIndex]
  · intro fuel
    cases fuel with
    | zero => rfl
    | succ fuel =>
      rw [paginateAll, paginate_none]
      have h1 : pySlice ([0] : List Nat) 0 0 = [] := by
        norm_num [pySlice, pyIndex]
      have h2 : ((0 : Int) < (([0] : List Nat).length : Int)) := by norm_num
      simp only [h1, decide_eq_true_eq, h2, if_true]
      rw [paginateAll_zero_fix ([0] : List Nat) (by norm_num) fuel]
      rfl

/-- C2 amended: pagination round-trip for every page size `L ≥ 1` — the
loop that starts with no cursor and follows `next_cursor` until
`has_more` is false (with enough fuel for each call to be made)
reassembles exactly the original list, each element once and in order. -/
theorem C2_pagination_roundtrip {α : Type} (items : List α) (L : Nat)
    (hL : 1 ≤ L) (fuel : Nat) (hfuel : items.length < fuel) :
    paginateAll (L : Int) items fuel none = some items := by
  cases fuel with
  | zero => omega
  | succ fuel =>
    rw [paginateAll, paginate_none]
    have hsl : pySlice items (0 : Int) (L : Int) = items.take L := by
      rw [show (0 : Int) = ((0 : Nat) : Int) by norm_num, pySlice_natCast,
        List.drop_zero]
    by_cases h : L < items.length
    · have hq : ((L : Int) < (items.length : Int)) := by exact_mod_cast h
      simp only [hsl, decide_eq_true_eq, hq, if_true]
      rw [paginateAll_encoded L hL items fuel L (by omega)]
      simp [List.take_append_drop]
    · have hq : ¬ ((L : Int) < (items.length : Int)) := by exact_mod_cast h
      simp only [hsl, decide_eq_true_eq, hq, if_false]
      rw [List.take_of_length_le (by omega)]

/-- C2 witness: three items, page size 2, fuel 4. -/
theorem C2_pagination_roundtrip_witness :
    paginateAll ((2 : Nat) : Int) ([7, 8, 9] : List Nat) 4 none =
      some [7, 8, 9] :=
  C2_pagination_roundtrip [7, 8, 9] 2 (by norm_num) 4 (by norm_num)

/-- C10: with a page size (`items_per_page` / `limit`) of 0 and any offset
`o` strictly below the list length, `paginate` returns an empty page with
`has_more = true` and a next cursor that decodes to the same offset `o`,
and the api `_calculate_pagination` likewise reports `has_more` with a
next cursor for the unchanged offset — so a cursor-following client loop
never advances. -/
theorem C10_zero_limit_no_progress {α : Type} (items : List α) (o : Nat)
    (h : o < items.length) :
    paginate 0 items (some (encode_cursor (o : Int))) =
      .ok { items := [], has_more := true,
            next_cursor := some (encode_cursor (o : Int)) } ∧
    cursorOffset (some (encode_cursor (o : Int))) = .ok (o : Int) ∧
    (api_calculate_pagination items.length 0
      (some (encode_cursor (o : Int)))).has_more = true ∧
    (api_calculate_pagination items.length 0
      (some (encode_cursor (o : Int)))).next_cursor =
        some (encode_cursor (o : Int)) := by
  have hstep := paginate_encoded_nat 0 o items
  simp only [Nat.add_zero] at hstep
  have hc : ((0 : Nat) : Int) = (0 : Int) := by norm_num
  rw [hc] at hstep
  have htk : (items.take o).drop o = [] :=
    List.drop_eq_nil_of_le (by rw [List.length_take]; omega)
  refine ⟨?_, cursorOffset_encode (o : Int), ?_, ?_⟩
  · rw [hstep, htk]
    simp [h]
  · unfold api_calculate_pagination
    rw [apiStartIndex_encode]
    have : (0 : Int) < (items.length : Int) - ((o : Int) + 0) := by
      omega
    simp [max_eq_left (by omega : (0 : Int) ≤ (items.length : Int) - ((o : Int) + 0)), this]
    omega
  · unfold api_calculate_pagination
    rw [apiStartIndex_encode]
    have hpos : (0 : Int) < (items.length : Int) - ((o : Int) + 0) := by
      omega
    simp [max_eq_left (by omega : (0 : Int) ≤ (items.length : Int) - ((o : Int) + 0)),
      hpos]
    omega

/-- C10 witness: two items, offset 1. -/
theorem C10_zero_limit_witness :
    paginate 0 ([5, 6] : List Nat) (some (encode_cursor ((1 : Nat) : Int))) =
      .ok { items := [], has_more := true,
            next_cursor := some (encode_cursor ((1 : Nat) : Int)) } :=
  (C10_zero_limit_no_progress [5, 6] 1 (by norm_num)).1

/-- C7 counterexample: the paginator accepts a crafted cursor encoding
the offset `-1` — it decodes without error to a negative offset (so not
every accepted cursor yields an offset ≥ 0), and `paginate` happily
returns a (Python-slice-clamped) page for it. -/
theorem C7_counterexample :
    cursorOffset (some (encode_cursor (-1))) = .ok (-1) ∧
    ¬ (0 : Int) ≤ -1 ∧
    paginate 2 ([10, 20, 30] : List Nat) (some (encode_cursor (-1))) =
      .ok { items := [], has_more := true, next_cursor := some (encode_cursor 1) } := by
  refine ⟨cursorOffset_encode (-1), by norm_num, ?_⟩
  rw [paginate_encoded]
  have h1 : pySlice ([10, 20, 30] : List Nat) (-1) (-1 + 2) = [] := by
    norm_num [pySlice, pyIndex]
  have h2 : ((-1 : Int) + 2 < (([10, 20, 30] : List Nat).length : Int)) := by
    norm_num
  rw [h1]
  norm_num [h2]

/-- C7 amended: every cursor produced by `encode_cursor` decodes to
exactly the integer offset it carries — negative offsets included, which
`paginate` accepts and clamps via Python slice semantics — and an offset
at or beyond the list length (with a nonnegative page size) degrades to an
empty page with `has_more = false` and no next cursor, never an error. -/
theorem C7_cursor_offsets {α : Type} (items : List α) (o L : Int)
    (hlen : (items.length : Int) ≤ o) (hL : 0 ≤ L) :
    cursorOffset (some (encode_cursor o)) = .ok o ∧
    paginate L items (some (encode_cursor o)) =
      .ok { items := [], has_more := false, next_cursor := none } := by
  refine ⟨cursorOffset_encode o, ?_⟩
  rw [paginate_encoded]
  have h1 : ¬ (o + L < (items.length : Int)) := by omega
  rw [pySlice_offscreen items (o + L) hlen]
  simp [h1]

/-- C7 witness: offset 5 at a two-element list with page size 3. -/
theorem C7_cursor_offsets_witness :
    cursorOffset (some (encode_cursor 5)) = .ok 5 ∧
    paginate 3 ([1, 2] : List Nat) (some (encode_cursor 5)) =
      .ok { items := [], has_more := false, next_cursor := none } :=
  C7_cursor_offsets [1, 2] 5 3 (by norm_num) (by norm_num)

/-- C4 counterexample: on the malformed cursor `"!!!"` the
`about-us-scraper-service` `decode_cursor` raises `PaginationError`, but
the `api/utils/pagination.py` `decode_cursor` — which the claim also
covers — returns the default `(0, False)` instead of failing with a
`PaginationError`. -/
theorem C4_counterexample :
    api_decode_cursor (some ['!', '!', '!']) = (0, false) ∧
    decode_cursor ['!', '!', '!'] = .error PaginationError.invalidCursor := by
  constructor
  · rfl
  · rfl

/-- C4 amended: the `about-us-scraper-service` `decode_cursor` fails with
a `PaginationError` exactly when the base64-decode / UTF-8-decode /
JSON-parse pipeline fails, and returns the decoded state when it
succeeds; the `api` `decode_cursor` instead reports failure on a
non-empty malformed cursor by returning `(0, False)`, never raising. -/
theorem C4_decode_cursor (cs : List Char) :
    (cursorPipeline cs = none →
      decode_cursor cs = .error PaginationError.invalidCursor ∧
      (cs ≠ [] → api_decode_cursor (some cs) = (0, false))) ∧
    (∀ v, cursorPipeline cs = some v → decode_cursor cs = .ok v) := by
  unfold decode_cursor api_decode_cursor cursorPipeline
  rcases hb : b64decode cs with _ | bs
  · have hne : cs ≠ [] := by
      intro hnil
      rw [hnil] at hb
      exact absurd hb (by simp [b64decode])
    simp [hb, hne]
  · rcases hs : bytesStr bs with _ | s
    · have hne : cs ≠ [] := by
        intro hnil
        rw [hnil] at hb
        have : bs = [] := by simpa [b64decode] using hb.symm
        rw [this] at hs
        exact absurd hs (by simp [bytesStr])
      simp [hb, hs, hne]
    · rcases hp : parseJson s with _ | v
      · constructor
        · intro _
          refine ⟨by simp [hb, hs, hp], fun hne => ?_⟩
          simp [hne, hb, hs, hp]
        · intro v hv
          rw [Option.some_bind, hs, Option.some_bind, hp] at hv
          exact absurd hv (by simp)
      · constructor
        · intro hc
          rw [Option.some_bind, hs, Option.some_bind, hp] at hc
          exact absurd hc (by simp)
        · intro v hv
          rw [Option.some_bind, hs, Option.some_bind, hp] at hv
          simp only [Option.some_inj] at hv
          simp [hs, hp, hv]

/-- C4 witness: the failure side at the malformed cursor `"***"` and the
success side at a genuine cursor for offset 5. -/
theorem C4_decode_cursor_witness :
    decode_cursor ['*', '*', '*'] = .error PaginationError.invalidCursor ∧
    decode_cursor (encode_cursor 5) = .ok (JVal.jobj [(offsetKey, 5)]) := by
  constructor
  · exact ((C4_decode_cursor ['*', '*', '*']).1 (by rfl)).1
  · exact (C4_decode_cursor (encode_cursor 5)).2 _ (cursorPipeline_encode 5)

/-- C3 counterexample: the claim says the jitter factor is drawn from
`[0.5, 1.5)`; `0.6` lies in that interval, yet `calculate_delay` of
`api/utils/retry.py` (jitter factor `1 + uniform(-0.25, 0.25)`, i.e.
`[0.75, 1.25]`) can never produce the corresponding delay `0.6` at
attempt 1 with the default policy (base delay 1). -/
theorem C3_counterexample :
    ((1 : ℚ)/2 ≤ 3/5 ∧ (3/5 : ℚ) < 3/2) ∧
    ¬ ∃ v : ℚ, -(1/4) ≤ v ∧ v ≤ 1/4 ∧
        calculate_delay 1
          { max_attempts := 3, initial_delay := 1, max_delay := 30,
            exponential_base := 2, jitter := true } v = 3/5 := by
  refine ⟨by norm_num, ?_⟩
  rintro ⟨v, h1, h2, h3⟩
  unfold calculate_delay at h3
  norm_num at h3
  linarith

/-- C3 amended: with jitter disabled, both retry implementations sleep the
deterministic schedule `min(initial_delay * base^(attempt-1), max_delay)`
between `max_attempts` failing attempts, independent of the random
draws; with jitter enabled, the `about-us-scraper-service` wrapper scales
that value by `0.5 + random()`, a factor in `[0.5, 1.5)`, while the `api`
`calculate_delay` scales it by `1 + uniform(-0.25, 0.25)`, a factor in
`[0.75, 1.25]`. -/
theorem C3_retry_delay_schedule (config : RetryConfig) (draws draws2 : Nat → ℚ)
    (a : Nat) (u v : ℚ) :
    (config.jitter = false →
      retry_delays config draws =
        (List.range (config.max_attempts - 1)).map
          (fun i => min (config.initial_delay * config.exponential_base ^ i)
            config.max_delay) ∧
      aus_retry_delays config draws2 =
        (List.range (config.max_attempts - 1)).map
          (fun i => min (config.initial_delay * config.exponential_base ^ i)
            config.max_delay)) ∧
    (config.jitter = true → 0 ≤ u → u < 1 →
      aus_delay a config u =
        min (config.initial_delay * config.exponential_base ^ a)
          config.max_delay * (1/2 + u) ∧
      (1/2 : ℚ) ≤ 1/2 + u ∧ 1/2 + u < 3/2) ∧
    (config.jitter = true → -(1/4) ≤ v → v ≤ 1/4 →
      calculate_delay a config v =
        min (config.initial_delay * config.exponential_base ^ (a - 1))
          config.max_delay * (1 + v) ∧
      (3/4 : ℚ) ≤ 1 + v ∧ 1 + v ≤ 5/4) := by
  refine ⟨fun h => retry_delays_no_jitter config draws draws2 h, ?_, ?_⟩
  · intro hj hu1 hu2
    refine ⟨?_, by linarith, by linarith⟩
    unfold aus_delay
    rw [hj]
    simp
  · intro hj hv1 hv2
    refine ⟨?_, by linarith, by linarith⟩
    unfold calculate_delay
    rw [hj]
    simp

/-- C3 witness: the deterministic schedule `[1, 2, 4]` for the default
policy without jitter, and both jitter branches at concrete draws. -/
theorem C3_retry_delay_schedule_witness :
    retry_delays
      { max_attempts := 4, initial_delay := 1, max_delay := 30,
        exponential_base := 2, jitter := false } (fun _ => 7) = [1, 2, 4] ∧
    aus_delay 0
      { max_attempts := 4, initial_delay := 1, max_delay := 30,
        exponential_base := 2, jitter := true } (1/4) = 3/4 ∧
    calculate_delay 1
      { max_attempts := 4, initial_delay := 1, max_delay := 30,
        exponential_base := 2, jitter := true } (1/4) = 5/4 := by
  refine ⟨?_, ?_, ?_⟩
  · have h := (C3_retry_delay_schedule
      { max_attempts := 4, initial_delay := 1, max_delay := 30,
        exponential_base := 2, jitter := false } (fun _ => 7) (fun _ => 7)
      0 0 0).1 rfl
    rw [h.1]
    norm_num [List.range_succ]
  · have h := ((C3_retry_delay_schedule
      { max_attempts := 4, initial_delay := 1, max_delay := 30,
        exponential_base := 2, jitter := true } (fun _ => 0) (fun _ => 0)
      0 (1/4) 0).2.1 rfl (by norm_num) (by norm_num)).1
    rw [h]
    norm_num
  · have h := ((C3_retry_delay_schedule
      { max_attempts := 4, initial_delay := 1, max_delay := 30,
        exponential_base := 2, jitter := true } (fun _ => 0) (fun _ => 0)
      1 0 (1/4)).2.2 rfl (by norm_num) (by norm_num)).1
    rw [h]
    norm_num

/-- The verification guard of the `about-us-scraper-service`
`compress_content`: bytes are only ever returned after decompressing them
and comparing byte-for-byte against the original. -/
theorem compress_content_verified (br gz fl : Codec) (content out : List Nat)
    (encoding : List Char)
    (h : compress_content br gz fl content encoding = some out) :
    ∃ c, selectCodec br gz fl encoding = some c ∧ c.decomp out = some content := by
  rcases hsel : selectCodec br gz fl encoding with _ | c
  · exfalso
    unfold compress_content at h
    rw [hsel] at h
    simp at h
  · have h2 : compressVerify c content = some out := by
      unfold compress_content at h
      rw [hsel] at h
      simpa using h
    refine ⟨c, rfl, ?_⟩
    unfold compressVerify at h2
    rcases hc : c.comp content with _ | compressed
    · simp [hc] at h2
    · simp only [hc] at h2
      rcases hd : c.decomp compressed with _ | decompressed
      · simp [hd] at h2
      · simp only [hd] at h2
        by_cases he : decompressed = content
        · rw [if_pos he] at h2
          simp only [Option.some_inj] at h2
          rw [← h2, hd, he]
        · rw [if_neg he] at h2
          exact absurd h2 (by simp)

/-- C6 counterexample: take a library whose decompression does not invert
its compression (compress always yields `[0]`, decompress always yields
`[9]`).  On content `[1, 2, 3]` the `api/middleware/compression.py`
`compress_content` — which the claim also cites — returns the compressed
bytes `[0]` even though they decompress to `[9] ≠ [1, 2, 3]`, while the
`about-us-scraper-service` implementation's guard returns `none` on the
same input: the claimed decompress-and-compare verification is absent from
the cited api implementation. -/
theorem C6_counterexample :
    api_compress_content ⟨fun _ => some [0], fun _ => some [9]⟩
        ⟨fun _ => some [0], fun _ => some [9]⟩
        ⟨fun _ => some [0], fun _ => some [9]⟩
        [1, 2, 3] ['g', 'z', 'i', 'p'] = some [0] ∧
    (Codec.mk (fun _ => some [0]) (fun _ => some [9])).decomp [0] = some [9] ∧
    ([9] : List Nat) ≠ [1, 2, 3] ∧
    compress_content ⟨fun _ => some [0], fun _ => some [9]⟩
        ⟨fun _ => some [0], fun _ => some [9]⟩
        ⟨fun _ => some [0], fun _ => some [9]⟩
        [1, 2, 3] ['g', 'z', 'i', 'p'] = none := by
  refine ⟨by decide, by decide, by decide, by decide⟩

/-- C6 amended: the `about-us-scraper-service` `compress_content`
verifies — whenever it returns bytes for a supported encoding,
decompressing them with the selected library recovers the original content
byte-for-byte, and any library failure, verification mismatch or
unsupported encoding yields `none` (triggering fallback); the `api`
`compress_content` instead returns the selected library's compressed
output directly, unverified — `none` only when the library raises or the
encoding is unsupported. -/
theorem C6_compression_verification (br gz fl : Codec) (content out : List Nat)
    (encoding : List Char) :
    (compress_content br gz fl content encoding = some out →
      ∃ c, selectCodec br gz fl encoding = some c ∧
        c.decomp out = some content) ∧
    (api_compress_content br gz fl content encoding = some out →
      ∃ c, selectCodec br gz fl encoding = some c ∧
        c.comp content = some out) ∧
    (selectCodec br gz fl encoding = none →
      compress_content br gz fl content encoding = none ∧
      api_compress_content br gz fl content encoding = none) := by
  refine ⟨compress_content_verified br gz fl content out encoding, ?_, ?_⟩
  · intro h
    unfold api_compress_content at h
    rcases hsel : selectCodec br gz fl encoding with _ | c
    · rw [hsel] at h
      exact absurd h (by simp)
    · rw [hsel] at h
      exact ⟨c, rfl, by simpa using h⟩
  · intro hsel
    unfold compress_content api_compress_content
    rw [hsel]
    exact ⟨rfl, rfl⟩

/-- C6 witness: with an identity library the verified implementation
returns the content and its guard recovers it; the api implementation's
output is exactly the library's compression. -/
theorem C6_compression_verification_witness :
    (∃ c, selectCodec ⟨some, some⟩ ⟨some, some⟩ ⟨some, some⟩
        ['g', 'z', 'i', 'p'] = some c ∧
      c.decomp [1, 2, 3] = some [1, 2, 3]) ∧
    (∃ c, selectCodec ⟨some, some⟩ ⟨some, some⟩ ⟨some, some⟩
        ['b', 'r'] = some c ∧
      c.comp [4] = some [4]) := by
  constructor
  · exact (C6_compression_verification ⟨some, some⟩ ⟨some, some⟩ ⟨some, some⟩
      [1, 2, 3] [1, 2, 3] ['g', 'z', 'i', 'p']).1 (by decide)
  · exact (C6_compression_verification ⟨some, some⟩ ⟨some, some⟩ ⟨some, some⟩
      [4] [4] ['b', 'r']).2.1 (by decide)

/-- C8 counterexample: `validate_api_key("invalid-key")` hits the length
check first (11 characters < 32) and returns "API key is too short", not
the "Invalid API key format" the claim asserts. -/
theorem C8_counterexample :
    validate_api_key (some ("invalid-key".toList)) = some "API key is too short" ∧
    some "API key is too short" ≠ some "Invalid API key format" := by
  constructor
  · decide
  · decide

/-- C8 amended: the validator rejection table with the corrected last
entry — `validate_url("not-a-url")` → "Invalid URL format";
`validate_url("ftp://x.com")` → scheme error (allowed schemes are the
default http/https); a 3008-character https URL → the exact length
message; `validate_api_key("sk-" + 32 alphanumerics)` → `none`; and
`validate_api_key("invalid-key")` → "API key is too short". -/
theorem C8_validator_table :
    validate_url defaultValidator ("not-a-url".toList) =
      some "Invalid URL format" ∧
    validate_url defaultValidator ("ftp://x.com".toList) =
      some "URL scheme must be one of: http, https" ∧
    validate_url defaultValidator
        ("https://".toList ++ List.replicate 3000 'a') =
      some "URL length exceeds maximum of 2048 characters" ∧
    validate_api_key (some ("sk-".toList ++ List.replicate 32 'a')) = none ∧
    validate_api_key (some ("invalid-key".toList)) =
      some "API key is too short" := by
  refine ⟨by decide, by decide, ?_, by decide, by decide⟩
  unfold validate_url
  rw [if_pos]
  · rfl
  · rw [List.length_append, List.length_replicate]
    decide

end Scraper
